import Mathlib

/-!
Shallow embedding of the PollyTrack server (src/server/server.js): the
family / task / member data model of `FamilySchema` and the controller
operations of `FamilyController`, modelled as pure functions over an
explicit document store.  Dates are naturals (timestamps); subdocument
ids are naturals; fields that Mongoose leaves undefined or nullable are
`Option`s.  The SMS sink is modelled by an event trace: a `save` event
for persistence, an `smsAttempt` event per outbound message and a
`logError` event per failed send, with the set of failing phone numbers
given as a boolean oracle.
-/

namespace PollyTrack

/-- A family member subdocument: `{ name, phone, notifications }` with
`notifications` defaulting to `true` (server.js lines 27-31). -/
structure Member where
  id : Nat
  name : String
  phone : String
  notifications : Bool
deriving DecidableEq, Repr

/-- A task subdocument (server.js lines 32-38).  `completedBy` and
`completedAt` have no default and are undefined until set, hence
`Option`; `isCompleted` defaults to `false`. -/
structure Task where
  id : Nat
  name : String
  category : String
  completedBy : Option String
  completedAt : Option Nat
  isCompleted : Bool
deriving DecidableEq, Repr

/-- A family document (server.js lines 25-40). -/
structure Family where
  id : Nat
  name : String
  members : List Member
  tasks : List Task
  createdAt : Nat
deriving DecidableEq, Repr

/-- The document store: the `families` collection. -/
abbrev Store := List Family

/-- The body of an HTTP response: a family document or an error message. -/
inductive Body where
  | fam (f : Family)
  | err (msg : String)
deriving DecidableEq, Repr

/-- An HTTP response: status code and body. -/
structure Response where
  status : Nat
  body : Body
deriving DecidableEq, Repr

/-- One outbound SMS: `{ body, to }` as passed to the Twilio client
(server.js lines 208-212; the `from` number is environment config). -/
structure Sms where
  body : String
  toNumber : String
deriving DecidableEq, Repr

/-- Observable side effects of `completeTask`: persisting the document,
attempting an SMS send, and logging a failed send. -/
inductive Event where
  | save (s : Store)
  | smsAttempt (m : Sms)
  | logError (msg : String)
deriving DecidableEq

/-- `Family.findById`: first family whose id matches. -/
def findById : Store → Nat → Option Family
  | [], _ => none
  | f :: fs, i => if f.id = i then some f else findById fs i

/-- `family.tasks.id(taskId)`: first task whose id matches. -/
def findTaskById : List Task → Nat → Option Task
  | [], _ => none
  | t :: ts, i => if t.id = i then some t else findTaskById ts i

/-- `family.members.id(memberId)`: first member whose id matches. -/
def findMemberById : List Member → Nat → Option Member
  | [], _ => none
  | m :: ms, i => if m.id = i then some m else findMemberById ms i

/-- In-place mutation of the subdocument returned by `tasks.id(taskId)`:
apply `g` to the first task whose id matches. -/
def setTaskById : List Task → Nat → (Task → Task) → List Task
  | [], _, _ => []
  | t :: ts, i, g => if t.id = i then g t :: ts else t :: setTaskById ts i g

/-- In-place mutation of the subdocument returned by
`members.id(memberId)`: apply `g` to the first member whose id matches. -/
def setMemberById : List Member → Nat → (Member → Member) → List Member
  | [], _, _ => []
  | m :: ms, i, g => if m.id = i then g m :: ms else m :: setMemberById ms i g

/-- `family.save()` on a loaded document: write the modified document
back over the stored one with the same id. -/
def replaceFamilyById : Store → Family → Store
  | [], _ => []
  | g :: gs, f => if g.id = f.id then f :: gs else g :: replaceFamilyById gs f

/-- JavaScript string interpolation of a possibly-undefined value:
an undefined `completedBy` prints as `undefined` in a template literal. -/
def jsStr : Option String → String
  | none => "undefined"
  | some s => s

/-- The enum of task categories (server.js line 34). -/
def categoryEnum : List String := ["health", "hygiene", "activity", "other"]

/-- A raw member object from a request body; any field may be absent. -/
structure MemberInput where
  name : Option String
  phone : Option String
  notifications : Option Bool
deriving DecidableEq, Repr

/-- Mongoose `required: true` validation for a member: `name` and
`phone` must be present and non-empty (the required validator rejects
the empty string). -/
def memberInputValid (m : MemberInput) : Bool :=
  (match m.name with | some s => !(s == "") | none => false) &&
  (match m.phone with | some s => !(s == "") | none => false)

/-- Casting a valid member input to a stored member, applying the
`notifications: true` default; ids are assigned by position. -/
def castMembers : Nat → List MemberInput → List Member
  | _, [] => []
  | i, m :: ms =>
    { id := i,
      name := (m.name).getD "",
      phone := (m.phone).getD "",
      notifications := (m.notifications).getD true } :: castMembers (i + 1) ms

/-- Validation run by `family.save()` inside `createFamily`: the family
name and every member must pass the required validators. -/
def createFamilyValid (name : Option String) (members : List MemberInput) : Bool :=
  (match name with | some s => !(s == "") | none => false) &&
  members.all memberInputValid

/-- The six default tasks seeded by `createFamily`
(server.js lines 50-57), with position-assigned subdocument ids. -/
def defaultTasks : List Task :=
  [ { id := 0, name := "Poop", category := "hygiene",
      completedBy := none, completedAt := none, isCompleted := false },
    { id := 1, name := "Pee", category := "hygiene",
      completedBy := none, completedAt := none, isCompleted := false },
    { id := 2, name := "Walk", category := "activity",
      completedBy := none, completedAt := none, isCompleted := false },
    { id := 3, name := "Feed", category := "health",
      completedBy := none, completedAt := none, isCompleted := false },
    { id := 4, name := "Medicine", category := "health",
      completedBy := none, completedAt := none, isCompleted := false },
    { id := 5, name := "Bath", category := "hygiene",
      completedBy := none, completedAt := none, isCompleted := false } ]

/-- `FamilyController.createFamily` (server.js lines 47-70): build a
family with the given name and members plus the six default tasks and
save it; a validation failure surfaces as a 400 and stores nothing.
`newId` models the generated ObjectId and `now` the creation time. -/
def createFamily (store : Store) (newId now : Nat)
    (name : Option String) (members : List MemberInput) : Store × Response :=
  if createFamilyValid name members then
    let f : Family :=
      { id := newId, name := name.getD "", members := castMembers 0 members,
        tasks := defaultTasks, createdAt := now }
    (store ++ [f], { status := 201, body := Body.fam f })
  else
    (store, { status := 400, body := Body.err "validation failed" })

/-- `FamilyController.sendTaskNotifications` (server.js lines 202-218):
for each member with the notifications flag set whose name differs from
`completedBy`, attempt an SMS with the interpolated message; a failing
send (per the `fails` oracle) is logged and the loop continues. -/
def sendTaskNotifications (fails : String → Bool)
    (family : Family) (task : Task) (completedBy : Option String) : List Event :=
  let message := jsStr completedBy ++ " completed task: " ++ task.name ++
    " for " ++ family.name
  family.members.flatMap (fun m =>
    if m.notifications && !(some m.name == completedBy) then
      Event.smsAttempt { body := message, toNumber := m.phone } ::
        (if fails m.phone then
          [Event.logError ("Failed to send SMS to " ++ m.phone)]
        else [])
    else [])

/-- The mutation of server.js lines 118-120: set `completedBy`,
`completedAt = now` and `isCompleted = true` on the loaded task. -/
def completeUpd (completedBy : Option String) (now : Nat) (t : Task) : Task :=
  { t with completedBy := completedBy, completedAt := some now,
           isCompleted := true }

/-- The mutation of server.js lines 148-150: clear `completedBy` to the
empty string, `completedAt` to null and `isCompleted` to false. -/
def resetUpd (t : Task) : Task :=
  { t with completedBy := some "", completedAt := none,
           isCompleted := false }

/-- The mutation of server.js line 193: flip the notifications flag. -/
def toggleUpd (m : Member) : Member :=
  { m with notifications := !m.notifications }

/-- `FamilyController.completeTask` (server.js lines 103-131): load the
family and task (404 on either miss), set `completedBy`, `completedAt`
and `isCompleted`, save, then run the notification fan-out.  Returns
the new store, the event trace and the response. -/
def completeTask (fails : String → Bool) (store : Store)
    (familyId taskId : Nat) (completedBy : Option String) (now : Nat) :
    Store × List Event × Response :=
  match findById store familyId with
  | none => (store, [], { status := 404, body := Body.err "Family not found" })
  | some family =>
    match findTaskById family.tasks taskId with
    | none => (store, [], { status := 404, body := Body.err "Task not found" })
    | some task =>
      let task' := completeUpd completedBy now task
      let family' := { family with
        tasks := setTaskById family.tasks taskId (completeUpd completedBy now) }
      let store' := replaceFamilyById store family'
      (store',
       Event.save store' :: sendTaskNotifications fails family' task' completedBy,
       { status := 200, body := Body.fam family' })

/-- `FamilyController.resetTask` (server.js lines 134-157): load the
family and task (404 on either miss), set `completedBy` to the empty
string, `completedAt` to null and `isCompleted` to false, and save. -/
def resetTask (store : Store) (familyId taskId : Nat) : Store × Response :=
  match findById store familyId with
  | none => (store, { status := 404, body := Body.err "Family not found" })
  | some family =>
    match findTaskById family.tasks taskId with
    | none => (store, { status := 404, body := Body.err "Task not found" })
    | some _ =>
      let family' := { family with
        tasks := setTaskById family.tasks taskId resetUpd }
      (replaceFamilyById store family',
       { status := 200, body := Body.fam family' })

/-- Validation run by `family.save()` inside `addTask`: the task name is
required and a present category must lie in the enum; an absent category
takes the `other` default. -/
def taskInputValid (name category : Option String) : Bool :=
  (match name with | some s => !(s == "") | none => false) &&
  (match category with | some c => categoryEnum.contains c | none => true)

/-- `FamilyController.addTask` (server.js lines 160-176): load the
family (404 on miss), push `{ name, category }` and save; schema
validation failure on save surfaces as a 400 and stores nothing.
`newTaskId` models the generated subdocument id. -/
def addTask (store : Store) (familyId newTaskId : Nat)
    (name category : Option String) : Store × Response :=
  match findById store familyId with
  | none => (store, { status := 404, body := Body.err "Family not found" })
  | some family =>
    if taskInputValid name category then
      let family' := { family with
        tasks := family.tasks ++
          [{ id := newTaskId, name := name.getD "",
             category := category.getD "other",
             completedBy := none, completedAt := none, isCompleted := false }] }
      (replaceFamilyById store family',
       { status := 200, body := Body.fam family' })
    else
      (store, { status := 400, body := Body.err "validation failed" })

/-- `FamilyController.toggleNotifications` (server.js lines 179-199):
load the family and member (404 on either miss), flip the member's
notifications flag and save. -/
def toggleNotifications (store : Store) (familyId memberId : Nat) :
    Store × Response :=
  match findById store familyId with
  | none => (store, { status := 404, body := Body.err "Family not found" })
  | some family =>
    match findMemberById family.members memberId with
    | none => (store, { status := 404, body := Body.err "Member not found" })
    | some _ =>
      let family' := { family with
        members := setMemberById family.members memberId toggleUpd }
      (replaceFamilyById store family',
       { status := 200, body := Body.fam family' })

/-- A partial update to the top-level fields of a family, as accepted by
`updateFamily`.  `findByIdAndUpdate` runs no validators by default, so
the patch values are applied as given. -/
structure FamilyPatch where
  name : Option String
  members : Option (List Member)
  tasks : Option (List Task)
deriving DecidableEq, Repr

/-- `FamilyController.updateFamily` (server.js lines 86-100): apply a
partial update to top-level fields, 404 when the family is missing. -/
def updateFamily (store : Store) (familyId : Nat) (patch : FamilyPatch) :
    Store × Response :=
  match findById store familyId with
  | none => (store, { status := 404, body := Body.err "Family not found" })
  | some family =>
    let family' := { family with
      name := patch.name.getD family.name,
      members := (patch.members).getD family.members,
      tasks := patch.tasks.getD family.tasks }
    (replaceFamilyById store family',
     { status := 200, body := Body.fam family' })

/-- `completedBy` counts as non-empty when it is a present, non-empty
string (JavaScript truthiness of the field). -/
def completedByNonEmpty : Option String → Bool
  | none => false
  | some s => !(s == "")

/-- The spec invariant on one task: `isCompleted` is true exactly when
`completedAt` is non-null and `completedBy` is non-empty. -/
def taskInv (t : Task) : Bool :=
  t.isCompleted == (t.completedAt.isSome && completedByNonEmpty t.completedBy)

/-- The spec invariant over a whole family. -/
def familyInv (f : Family) : Bool := f.tasks.all taskInv

/-- The spec invariant over the whole store. -/
def storeInv (s : Store) : Bool := s.all familyInv

/-- The SMS attempts recorded in an event trace, in order. -/
def attemptedSms (events : List Event) : List Sms :=
  events.filterMap (fun e =>
    match e with
    | Event.smsAttempt m => some m
    | _ => none)

/-- Concrete sample store holding one family whose only task carries an
empty-string completedBy and a null completedAt, the state a reset
leaves behind. -/
def resetSampleStore : Store :=
  [{ id := 1, name := "Fam",
     members := [{ id := 0, name := "A", phone := "111",
                   notifications := true }],
     tasks := [{ id := 0, name := "Poop", category := "hygiene",
                 completedBy := some "", completedAt := none,
                 isCompleted := false }],
     createdAt := 0 }]

def sampleStore : Store :=
  [{ id := 1, name := "Fam",
     members := [{ id := 0, name := "A", phone := "111", notifications := true },
                 { id := 1, name := "B", phone := "222", notifications := false },
                 { id := 2, name := "C", phone := "333", notifications := true }],
     tasks := defaultTasks, createdAt := 0 }]

theorem sample_is_create :
    (createFamily [] 1 0 (some "Fam")
      [{ name := some "A", phone := some "111", notifications := some true },
       { name := some "B", phone := some "222", notifications := some false },
       { name := some "C", phone := some "333", notifications := none }]).1 =
    sampleStore := by decide

theorem findById_id {s : Store} {i : Nat} {f : Family}
    (h : findById s i = some f) : f.id = i := by
  induction s with
  | nil => simp [findById] at h
  | cons g gs ih =>
    by_cases hg : g.id = i
    · simp [findById, hg] at h; exact h ▸ hg
    · simp [findById, hg] at h; exact ih h

theorem findById_replace {s : Store} {i : Nat} {f f' : Family}
    (h : findById s i = some f) (hid : f'.id = i) :
    findById (replaceFamilyById s f') i = some f' := by
  induction s with
  | nil => simp [findById] at h
  | cons g gs ih =>
    by_cases hg : g.id = i
    · simp [replaceFamilyById, findById, hid, hg]
    · simp [findById, hg] at h
      simp [replaceFamilyById, findById, hid, hg]
      exact ih h

theorem replaceFamilyById_self {s : Store} {i : Nat} {f : Family}
    (h : findById s i = some f) : replaceFamilyById s f = s := by
  induction s with
  | nil => rfl
  | cons g gs ih =>
    by_cases hg : g.id = i
    · simp [findById, hg] at h
      simp [replaceFamilyById, h]
    · simp [findById, hg] at h
      have hfi : f.id = i := findById_id h
      simp [replaceFamilyById, hfi, hg, ih h]

theorem replaceFamilyById_replaceFamilyById {s : Store} {f₁ f₂ : Family}
    (hid : f₁.id = f₂.id) :
    replaceFamilyById (replaceFamilyById s f₁) f₂ = replaceFamilyById s f₂ := by
  induction s with
  | nil => rfl
  | cons g gs ih =>
    by_cases hg : g.id = f₁.id
    · simp [replaceFamilyById, hg, hid ▸ hg, hid]
    · simp [replaceFamilyById, hg, hid ▸ hg, ih]

theorem completeUpd_id (cb : Option String) (now : Nat) (t : Task) :
    (completeUpd cb now t).id = t.id := rfl

theorem resetUpd_id (t : Task) : (resetUpd t).id = t.id := rfl

theorem toggleUpd_id (m : Member) : (toggleUpd m).id = m.id := rfl

theorem toggleUpd_toggleUpd (m : Member) : toggleUpd (toggleUpd m) = m := by
  cases m
  simp [toggleUpd]

theorem findTaskById_setTaskById (l : List Task) (i : Nat) (g : Task → Task)
    (hg : ∀ t, (g t).id = t.id) :
    findTaskById (setTaskById l i g) i = (findTaskById l i).map g := by
  induction l with
  | nil => rfl
  | cons t ts ih =>
    by_cases ht : t.id = i
    · simp [setTaskById, findTaskById, ht, hg]
    · simp [setTaskById, findTaskById, ht, ih]

theorem setTaskById_setTaskById (l : List Task) (i : Nat) (g h : Task → Task)
    (hg : ∀ t, (g t).id = t.id) :
    setTaskById (setTaskById l i g) i h = setTaskById l i (fun t => h (g t)) := by
  induction l with
  | nil => rfl
  | cons t ts ih =>
    by_cases ht : t.id = i
    · simp [setTaskById, ht, hg]
    · simp [setTaskById, ht, ih]

theorem findMemberById_setMemberById (l : List Member) (i : Nat)
    (g : Member → Member) (hg : ∀ m, (g m).id = m.id) :
    findMemberById (setMemberById l i g) i = (findMemberById l i).map g := by
  induction l with
  | nil => rfl
  | cons m ms ih =>
    by_cases hm : m.id = i
    · simp [setMemberById, findMemberById, hm, hg]
    · simp [setMemberById, findMemberById, hm, ih]

theorem setMemberById_setMemberById (l : List Member) (i : Nat)
    (g h : Member → Member) (hg : ∀ m, (g m).id = m.id) :
    setMemberById (setMemberById l i g) i h =
      setMemberById l i (fun m => h (g m)) := by
  induction l with
  | nil => rfl
  | cons m ms ih =>
    by_cases hm : m.id = i
    · simp [setMemberById, hm, hg]
    · simp [setMemberById, hm, ih]

theorem setMemberById_id_fun (l : List Member) (i : Nat) (g : Member → Member)
    (hg : ∀ m, g m = m) : setMemberById l i g = l := by
  induction l with
  | nil => rfl
  | cons m ms ih =>
    by_cases hm : m.id = i
    · simp [setMemberById, hm, hg]
    · simp [setMemberById, hm, ih]

theorem storeInv_find {s : Store} {i : Nat} {f : Family}
    (hs : storeInv s = true) (h : findById s i = some f) :
    familyInv f = true := by
  induction s with
  | nil => simp [findById] at h
  | cons g gs ih =>
    simp only [storeInv, List.all_cons, Bool.and_eq_true] at hs
    by_cases hg : g.id = i
    · simp [findById, hg] at h
      exact h ▸ hs.1
    · simp [findById, hg] at h
      exact ih hs.2 h

theorem storeInv_replace {s : Store} {f : Family}
    (hs : storeInv s = true) (hf : familyInv f = true) :
    storeInv (replaceFamilyById s f) = true := by
  induction s with
  | nil => rfl
  | cons g gs ih =>
    simp only [storeInv, List.all_cons, Bool.and_eq_true] at hs
    by_cases hg : g.id = f.id
    · simp only [replaceFamilyById, if_pos hg, storeInv, List.all_cons,
        Bool.and_eq_true]
      exact ⟨hf, hs.2⟩
    · simp only [replaceFamilyById, if_neg hg, storeInv, List.all_cons,
        Bool.and_eq_true]
      exact ⟨hs.1, ih hs.2⟩

theorem all_setTaskById {l : List Task} {i : Nat} {g : Task → Task}
    (hl : l.all taskInv = true) (hg : ∀ t, taskInv (g t) = true) :
    (setTaskById l i g).all taskInv = true := by
  induction l with
  | nil => rfl
  | cons t ts ih =>
    simp only [List.all_cons, Bool.and_eq_true] at hl
    by_cases ht : t.id = i
    · simp only [setTaskById, if_pos ht, List.all_cons, Bool.and_eq_true]
      exact ⟨hg t, hl.2⟩
    · simp only [setTaskById, if_neg ht, List.all_cons, Bool.and_eq_true]
      exact ⟨hl.1, ih hl.2⟩

theorem attemptedSms_fanout_aux (fails : String → Bool) (msg : String)
    (cb : Option String) (ms : List Member) :
    attemptedSms (ms.flatMap (fun m =>
      if m.notifications && !(some m.name == cb) then
        Event.smsAttempt { body := msg, toNumber := m.phone } ::
          (if fails m.phone then
            [Event.logError ("Failed to send SMS to " ++ m.phone)]
          else [])
      else [])) =
    (ms.filter (fun m => m.notifications && !(some m.name == cb))).map
      (fun m => { body := msg, toNumber := m.phone }) := by
  induction ms with
  | nil => rfl
  | cons m ms ih =>
    simp only [attemptedSms] at ih ⊢
    rw [List.flatMap_cons, List.filterMap_append, List.filter_cons, ih]
    by_cases h : (m.notifications && !(some m.name == cb)) = true
    · rw [if_pos h, if_pos h]
      by_cases hf : fails m.phone = true
      · rw [if_pos hf]; rfl
      · rw [if_neg hf]; rfl
    · rw [if_neg h, if_neg h]; rfl

theorem attemptedSms_sendTaskNotifications (fails : String → Bool)
    (family : Family) (task : Task) (cb : Option String) :
    attemptedSms (sendTaskNotifications fails family task cb) =
      (family.members.filter
        (fun m => m.notifications && !(some m.name == cb))).map
        (fun m => { body := jsStr cb ++ " completed task: " ++ task.name ++
                      " for " ++ family.name,
                    toNumber := m.phone }) :=
  attemptedSms_fanout_aux fails _ cb family.members

theorem sendTaskNotifications_no_save (fails : String → Bool)
    (family : Family) (task : Task) (cb : Option String) :
    ∀ e ∈ sendTaskNotifications fails family task cb, ∀ st, e ≠ Event.save st := by
  intro e he st
  simp only [sendTaskNotifications, List.mem_flatMap] at he
  obtain ⟨m, _, hme⟩ := he
  by_cases h : (m.notifications && !(some m.name == cb)) = true
  · rw [if_pos h] at hme
    by_cases hf : fails m.phone = true
    · rw [if_pos hf] at hme
      simp at hme
      rcases hme with hme | hme <;> simp [hme]
    · simp [hf] at hme
      simp [hme]
  · rw [if_neg h] at hme
    simp at hme
theorem sendTaskNotifications_log_mem (fails : String → Bool)
    (family : Family) (task : Task) (cb : Option String) :
    ∀ m ∈ family.members, (m.notifications && !(some m.name == cb)) = true →
      fails m.phone = true →
      Event.logError ("Failed to send SMS to " ++ m.phone) ∈
        sendTaskNotifications fails family task cb := by
  intro m hm hcond hfail
  simp only [sendTaskNotifications, List.mem_flatMap]
  exact ⟨m, hm, by rw [if_pos hcond, if_pos hfail]; simp⟩

/-- C2: for every name and member list accepted by createFamily, the
created family carries exactly six tasks named Poop (hygiene), Pee
(hygiene), Walk (activity), Feed (health), Medicine (health), Bath
(hygiene), each with isCompleted false, completedBy empty and
completedAt null. -/
theorem createFamily_seeds_six_default_tasks (s : Store) (newId now : Nat)
    (name : Option String) (members : List MemberInput)
    (h : createFamilyValid name members = true) :
    ∃ f : Family,
      (createFamily s newId now name members).2 =
        { status := 201, body := Body.fam f } ∧
      f.tasks.length = 6 ∧
      f.tasks.map (fun t => (t.name, t.category)) =
        [("Poop", "hygiene"), ("Pee", "hygiene"), ("Walk", "activity"),
         ("Feed", "health"), ("Medicine", "health"), ("Bath", "hygiene")] ∧
      f.tasks.all (fun t => !t.isCompleted && t.completedBy == none &&
        t.completedAt == none) = true := by
  refine ⟨{ id := newId, name := name.getD "",
            members := castMembers 0 members, tasks := defaultTasks,
            createdAt := now }, ?_, rfl, rfl, rfl⟩
  simp [createFamily, h]

/-- Witness for C2 at a concrete accepted input. -/
theorem createFamily_seeds_six_default_tasks_witness :
    createFamilyValid (some "Fam")
      [{ name := some "A", phone := some "111", notifications := none }] =
      true ∧
    (∃ f : Family,
      (createFamily [] 1 0 (some "Fam")
        [{ name := some "A", phone := some "111",
           notifications := none }]).2 =
        { status := 201, body := Body.fam f } ∧
      f.tasks.length = 6 ∧
      f.tasks.map (fun t => (t.name, t.category)) =
        [("Poop", "hygiene"), ("Pee", "hygiene"), ("Walk", "activity"),
         ("Feed", "health"), ("Medicine", "health"), ("Bath", "hygiene")] ∧
      f.tasks.all (fun t => !t.isCompleted && t.completedBy == none &&
        t.completedAt == none) = true) :=
  ⟨rfl, createFamily_seeds_six_default_tasks [] 1 0 (some "Fam")
    [{ name := some "A", phone := some "111", notifications := none }] rfl⟩

/-- C3: completeTask on an unknown familyId, or on a known family with
an unknown taskId, answers 404 with the fixed message, attempts no
side effect and leaves the store untouched. -/
theorem completeTask_not_found (fails : String → Bool) (s : Store)
    (familyId taskId : Nat) (cb : Option String) (now : Nat) :
    (findById s familyId = none →
      completeTask fails s familyId taskId cb now =
        (s, [], { status := 404, body := Body.err "Family not found" })) ∧
    (∀ f, findById s familyId = some f →
      findTaskById f.tasks taskId = none →
      completeTask fails s familyId taskId cb now =
        (s, [], { status := 404, body := Body.err "Task not found" })) := by
  constructor
  · intro h
    simp [completeTask, h]
  · intro f hf ht
    simp [completeTask, hf, ht]

/-- Witness for C3: unknown family id 2 and unknown task id 99 on the
sample store. -/
theorem completeTask_not_found_witness :
    completeTask (fun _ => false) sampleStore 2 0 none 0 =
      (sampleStore, [],
       { status := 404, body := Body.err "Family not found" }) ∧
    completeTask (fun _ => false) sampleStore 1 99 none 0 =
      (sampleStore, [],
       { status := 404, body := Body.err "Task not found" }) :=
  ⟨(completeTask_not_found (fun _ => false) sampleStore 2 0 none 0).1 rfl,
   (completeTask_not_found (fun _ => false) sampleStore 1 99 none 0).2
     _ rfl rfl⟩

/-- C7: createFamily answers 400 and stores nothing whenever the name is
empty or absent, or some member lacks a name or a phone. -/
theorem createFamily_validation_error (s : Store) (newId now : Nat)
    (name : Option String) (members : List MemberInput)
    (h : name = none ∨ name = some "" ∨
      ∃ m ∈ members, m.name = none ∨ m.name = some "" ∨
        m.phone = none ∨ m.phone = some "") :
    createFamily s newId now name members =
      (s, { status := 400, body := Body.err "validation failed" }) := by
  have hv : createFamilyValid name members = false := by
    rcases h with h | h | ⟨m, hm, hbad⟩
    · simp [createFamilyValid, h]
    · simp [createFamilyValid, h]
    · have hmv : memberInputValid m = false := by
        rcases hbad with hb | hb | hb | hb <;> simp [memberInputValid, hb]
      have hall : members.all memberInputValid = false := by
        cases hallc : members.all memberInputValid
        · rfl
        · exact absurd (List.all_eq_true.mp hallc m hm) (by simp [hmv])
      simp [createFamilyValid, hall]
  simp [createFamily, hv]

/-- Witness for C7: an empty family name is rejected. -/
theorem createFamily_validation_error_witness :
    createFamily [] 1 0 (some "") [] =
      ([], { status := 400, body := Body.err "validation failed" }) :=
  createFamily_validation_error [] 1 0 (some "") [] (Or.inr (Or.inl rfl))

/-- C10: addTask on an existing family with a category outside the enum
answers 400 and leaves the store untouched; the invalid value is not
defaulted to other. -/
theorem addTask_rejects_invalid_category (s : Store)
    (familyId newTaskId : Nat) (name : Option String) (c : String)
    (f : Family) (hf : findById s familyId = some f)
    (hc : categoryEnum.contains c = false) :
    addTask s familyId newTaskId name (some c) =
      (s, { status := 400, body := Body.err "validation failed" }) := by
  have hv : taskInputValid name (some c) = false := by
    have he : taskInputValid name (some c) =
        ((match name with | some s => !(s == "") | none => false) &&
          categoryEnum.contains c) := rfl
    rw [he, hc, Bool.and_false]
  simp [addTask, hf, hv]

/-- Witness for C10: category food is rejected on the sample store. -/
theorem addTask_rejects_invalid_category_witness :
    addTask sampleStore 1 6 (some "Play") (some "food") =
      (sampleStore, { status := 400, body := Body.err "validation failed" }) :=
  addTask_rejects_invalid_category sampleStore 1 6 (some "Play") "food"
    _ rfl rfl

/-- C8: addTask on an existing family with a valid name and the category
omitted appends exactly one task with that name, category other and
isCompleted false, leaving prior tasks and the members untouched. -/
theorem addTask_defaults_category_other (s : Store)
    (familyId newTaskId : Nat) (name : Option String) (f : Family)
    (n : String) (hf : findById s familyId = some f) (hn : name = some n)
    (hne : n ≠ "") :
    ∃ f', addTask s familyId newTaskId name none =
        (replaceFamilyById s f',
         { status := 200, body := Body.fam f' }) ∧
      f'.tasks = f.tasks ++
        [{ id := newTaskId, name := n, category := "other",
           completedBy := none, completedAt := none,
           isCompleted := false }] ∧
      f'.members = f.members ∧ f'.name = f.name ∧ f'.id = f.id := by
  subst hn
  have hv : taskInputValid (some n) none = true := by
    simp [taskInputValid, hne]
  refine ⟨{ f with tasks := f.tasks ++
              [{ id := newTaskId, name := n, category := "other",
                 completedBy := none, completedAt := none,
                 isCompleted := false }] }, ?_, rfl, rfl, rfl, rfl⟩
  simp [addTask, hf, hv]

/-- Witness for C8 on the sample store. -/
theorem addTask_defaults_category_other_witness :
    ∃ f', addTask sampleStore 1 6 (some "Play") none =
        (replaceFamilyById sampleStore f',
         { status := 200, body := Body.fam f' }) ∧
      f'.tasks = defaultTasks ++
        [{ id := 6, name := "Play", category := "other",
           completedBy := none, completedAt := none,
           isCompleted := false }] ∧
      f'.members =
        [{ id := 0, name := "A", phone := "111", notifications := true },
         { id := 1, name := "B", phone := "222", notifications := false },
         { id := 2, name := "C", phone := "333", notifications := true }] ∧
      f'.name = "Fam" ∧ f'.id = 1 :=
  addTask_defaults_category_other sampleStore 1 6 (some "Play") _ "Play"
    rfl rfl (by decide)

/-- C5: the notification fan-out attempts exactly one SMS per member
whose notifications flag is on and whose name differs from completedBy,
each carrying the interpolated message; in the A/B/C example completed
by A only C is messaged. -/
theorem sendTaskNotifications_fanout (fails : String → Bool)
    (family : Family) (task : Task) (completedBy : String) :
    attemptedSms (sendTaskNotifications fails family task (some completedBy)) =
      (family.members.filter (fun m =>
        m.notifications && !(some m.name == some completedBy))).map
        (fun m => { body := completedBy ++ " completed task: " ++
                      task.name ++ " for " ++ family.name,
                    toNumber := m.phone }) ∧
    attemptedSms (sendTaskNotifications fails
      { id := 1, name := "Fam",
        members :=
          [{ id := 0, name := "A", phone := "111", notifications := true },
           { id := 1, name := "B", phone := "222", notifications := false },
           { id := 2, name := "C", phone := "333", notifications := true }],
        tasks := defaultTasks, createdAt := 0 }
      { id := 2, name := "Walk", category := "activity",
        completedBy := some "A", completedAt := some 5, isCompleted := true }
      (some "A")) =
      [{ body := "A completed task: Walk for Fam", toNumber := "333" }] := by
  constructor
  · exact attemptedSms_sendTaskNotifications fails family task (some completedBy)
  · rw [attemptedSms_sendTaskNotifications]
    rfl

/-- C9: toggling the notifications flag of a member twice returns the
whole store, and hence the flag, to its original value. -/
theorem toggleNotifications_involutive (s : Store) (familyId memberId : Nat)
    (f : Family) (m : Member) (hf : findById s familyId = some f)
    (hm : findMemberById f.members memberId = some m) :
    (toggleNotifications
      (toggleNotifications s familyId memberId).1 familyId memberId).1 = s := by
  have hfid : f.id = familyId := findById_id hf
  have e1 : (toggleNotifications s familyId memberId).1 =
      replaceFamilyById s
        { f with members := setMemberById f.members memberId toggleUpd } := by
    simp [toggleNotifications, hf, hm]
  have hf1 : findById (replaceFamilyById s
      { f with members := setMemberById f.members memberId toggleUpd })
      familyId =
      some { f with members := setMemberById f.members memberId toggleUpd } :=
    findById_replace hf hfid
  have hm1 : findMemberById
      (setMemberById f.members memberId toggleUpd) memberId =
      some (toggleUpd m) := by
    rw [findMemberById_setMemberById f.members memberId toggleUpd toggleUpd_id,
      hm]
    rfl
  have hmm : setMemberById
      (setMemberById f.members memberId toggleUpd) memberId toggleUpd =
      f.members := by
    rw [setMemberById_setMemberById f.members memberId toggleUpd toggleUpd
      toggleUpd_id]
    exact setMemberById_id_fun f.members memberId _ toggleUpd_toggleUpd
  have e2 : (toggleNotifications (replaceFamilyById s
      { f with members := setMemberById f.members memberId toggleUpd })
      familyId memberId).1 =
      replaceFamilyById (replaceFamilyById s
        { f with members := setMemberById f.members memberId toggleUpd })
        f := by
    simp [toggleNotifications, hf1, hm1, hmm]
  rw [e1, e2]
  have h3 : replaceFamilyById (replaceFamilyById s
      { f with members := setMemberById f.members memberId toggleUpd }) f =
      replaceFamilyById s f :=
    replaceFamilyById_replaceFamilyById rfl
  rw [h3]
  exact replaceFamilyById_self hf

/-- Witness for C9: toggling member 0 of the sample store twice is the
identity. -/
theorem toggleNotifications_involutive_witness :
    (toggleNotifications
      (toggleNotifications sampleStore 1 0).1 1 0).1 = sampleStore :=
  toggleNotifications_involutive sampleStore 1 0 _ _ rfl rfl

/-- C4 (amended): complete followed by reset on the same task always
leaves that task with completedBy equal to the empty string, completedAt
null and isCompleted false, its other fields untouched; this equals the
state before the completion exactly when completedBy was already the
empty string there, whereas a freshly seeded task (absent completedBy)
is not restored bit-for-bit. -/
theorem complete_reset_roundtrip (fails : String → Bool) (s : Store)
    (familyId taskId : Nat) (cb : Option String) (now : Nat)
    (f : Family) (t : Task) (hf : findById s familyId = some f)
    (ht : findTaskById f.tasks taskId = some t) :
    ∃ f' t',
      findById (resetTask (completeTask fails s familyId taskId cb now).1
        familyId taskId).1 familyId = some f' ∧
      findTaskById f'.tasks taskId = some t' ∧
      t' = { t with completedBy := some "", completedAt := none,
                    isCompleted := false } ∧
      (t' = t ↔ t.completedBy = some "" ∧ t.completedAt = none ∧
        t.isCompleted = false) := by
  have hfid : f.id = familyId := findById_id hf
  have e1 : (completeTask fails s familyId taskId cb now).1 =
      replaceFamilyById s
        { f with tasks := setTaskById f.tasks taskId (completeUpd cb now) } := by
    simp [completeTask, hf, ht]
  have hf1 : findById (replaceFamilyById s
      { f with tasks := setTaskById f.tasks taskId (completeUpd cb now) })
      familyId =
      some { f with tasks := setTaskById f.tasks taskId (completeUpd cb now) } :=
    findById_replace hf hfid
  have ht1 : findTaskById
      (setTaskById f.tasks taskId (completeUpd cb now)) taskId =
      some (completeUpd cb now t) := by
    rw [findTaskById_setTaskById f.tasks taskId (completeUpd cb now)
      (completeUpd_id cb now), ht]
    rfl
  have e2 : (resetTask (replaceFamilyById s
      { f with tasks := setTaskById f.tasks taskId (completeUpd cb now) })
      familyId taskId).1 =
      replaceFamilyById (replaceFamilyById s
        { f with tasks := setTaskById f.tasks taskId (completeUpd cb now) })
        { f with tasks := setTaskById f.tasks taskId
                    (fun u => resetUpd (completeUpd cb now u)) } := by
    simp [resetTask, hf1, ht1,
      setTaskById_setTaskById f.tasks taskId (completeUpd cb now) resetUpd
        (completeUpd_id cb now)]
  have hf2 : findById (resetTask (completeTask fails s familyId taskId cb
      now).1 familyId taskId).1 familyId =
      some { f with tasks := setTaskById f.tasks taskId
                      (fun u => resetUpd (completeUpd cb now u)) } := by
    rw [e1, e2]
    exact findById_replace hf1 hfid
  have ht2 : findTaskById (setTaskById f.tasks taskId
      (fun u => resetUpd (completeUpd cb now u))) taskId =
      some (resetUpd (completeUpd cb now t)) := by
    rw [findTaskById_setTaskById f.tasks taskId
      (fun u => resetUpd (completeUpd cb now u)) (fun u => rfl), ht]
    rfl
  refine ⟨_, _, hf2, ht2, rfl, ?_⟩
  cases t
  constructor
  · intro h
    injection h with h1 h2 h3 h4 h5 h6
    exact ⟨h4.symm, h5.symm, h6.symm⟩
  · rintro ⟨h4, h5, h6⟩
    simp only at h4 h5 h6
    subst h4
    subst h5
    subst h6
    rfl

/-- Witness for C4 (amended): on a store whose task 0 already carries an
empty-string completedBy, complete followed by reset restores it. -/
theorem complete_reset_roundtrip_witness :
    ∃ f' t',
      findById (resetTask (completeTask (fun _ => false)
        resetSampleStore 1 0 (some "A") 5).1 1 0).1 1 = some f' ∧
      findTaskById f'.tasks 0 = some t' ∧
      t' = { id := 0, name := "Poop", category := "hygiene",
             completedBy := some "", completedAt := none,
             isCompleted := false } ∧
      (t' = { id := 0, name := "Poop", category := "hygiene",
              completedBy := some "", completedAt := none,
              isCompleted := false } ↔
        (some "" : Option String) = some "" ∧ (none : Option Nat) = none ∧
        false = false) :=
  complete_reset_roundtrip (fun _ => false) resetSampleStore 1 0 (some "A") 5
    _ _ rfl rfl

/-- C4 is false as stated: on the freshly created sample store the
seeded task 0 has an absent completedBy, and complete followed by reset
leaves completedBy as the empty string, a different task state. -/
theorem complete_reset_roundtrip_counterexample :
    (findById sampleStore 1).bind (fun f => findTaskById f.tasks 0) =
      some { id := 0, name := "Poop", category := "hygiene",
             completedBy := none, completedAt := none,
             isCompleted := false } ∧
    (findById (resetTask (completeTask (fun _ => false) sampleStore 1 0
        (some "A") 5).1 1 0).1 1).bind (fun f => findTaskById f.tasks 0) =
      some { id := 0, name := "Poop", category := "hygiene",
             completedBy := some "", completedAt := none,
             isCompleted := false } ∧
    ({ id := 0, name := "Poop", category := "hygiene",
       completedBy := some "", completedAt := none,
       isCompleted := false } : Task) ≠
    { id := 0, name := "Poop", category := "hygiene",
      completedBy := none, completedAt := none, isCompleted := false } := by
  refine ⟨rfl, rfl, ?_⟩
  decide

/-- C1 is false as stated: from the empty store, createFamily followed
by completeTask with an empty completedBy reaches a state whose task 0
has isCompleted true yet an empty completedBy, breaking the
equivalence. -/
theorem completeTask_empty_completedBy_breaks_invariant :
    (createFamily [] 1 0 (some "Fam")
      [{ name := some "A", phone := some "111", notifications := some true },
       { name := some "B", phone := some "222", notifications := some false },
       { name := some "C", phone := some "333", notifications := none }]).1 =
      sampleStore ∧
    storeInv sampleStore = true ∧
    (findById (completeTask (fun _ => false) sampleStore 1 0 (some "") 5).1
        1).bind (fun f => findTaskById f.tasks 0) =
      some { id := 0, name := "Poop", category := "hygiene",
             completedBy := some "", completedAt := some 5,
             isCompleted := true } ∧
    taskInv { id := 0, name := "Poop", category := "hygiene",
              completedBy := some "", completedAt := some 5,
              isCompleted := true } = false := by
  refine ⟨rfl, rfl, rfl, ?_⟩
  decide

/-- C1 (amended): the completion-state equivalence isCompleted true iff
completedAt non-null and completedBy non-empty holds after createFamily
and is preserved by resetTask, addTask, toggleMemberNotifications, by
completeTask whenever its completedBy argument is a present non-empty
string, and by updateFamily whenever the tasks the patch carries (if
any) satisfy it; completeTask with an empty or missing completedBy is
the one operation that breaks it. -/
theorem storeInv_preserved (s : Store) (hs : storeInv s = true) :
    (∀ newId now name members,
      storeInv (createFamily s newId now name members).1 = true) ∧
    (∀ fails familyId taskId cb now, completedByNonEmpty cb = true →
      storeInv (completeTask fails s familyId taskId cb now).1 = true) ∧
    (∀ familyId taskId, storeInv (resetTask s familyId taskId).1 = true) ∧
    (∀ familyId newTaskId name category,
      storeInv (addTask s familyId newTaskId name category).1 = true) ∧
    (∀ familyId memberId,
      storeInv (toggleNotifications s familyId memberId).1 = true) ∧
    (∀ familyId patch, (∀ ts, patch.tasks = some ts → ts.all taskInv = true) →
      storeInv (updateFamily s familyId patch).1 = true) := by
  refine ⟨?_, ?_, ?_, ?_, ?_, ?_⟩
  · intro newId now name members
    by_cases hv : createFamilyValid name members = true
    · have : (createFamily s newId now name members).1 =
          s ++ [{ id := newId, name := name.getD "",
                  members := castMembers 0 members, tasks := defaultTasks,
                  createdAt := now }] := by
        simp [createFamily, hv]
      rw [this]
      simp only [storeInv, List.all_append] at *
      rw [hs]
      rfl
    · have : (createFamily s newId now name members).1 = s := by
        simp [createFamily, hv]
      rw [this]
      exact hs
  · intro fails familyId taskId cb now hcb
    rcases hfind : findById s familyId with _ | f
    · simp [completeTask, hfind]
      exact hs
    · rcases htask : findTaskById f.tasks taskId with _ | t
      · simp [completeTask, hfind, htask]
        exact hs
      · have : (completeTask fails s familyId taskId cb now).1 =
            replaceFamilyById s
              { f with tasks := setTaskById f.tasks taskId
                                  (completeUpd cb now) } := by
          simp [completeTask, hfind, htask]
        rw [this]
        refine storeInv_replace hs ?_
        have hfam : familyInv f = true := storeInv_find hs hfind
        exact all_setTaskById hfam (fun u => by simp [taskInv, completeUpd, hcb])
  · intro familyId taskId
    rcases hfind : findById s familyId with _ | f
    · simp [resetTask, hfind]
      exact hs
    · rcases htask : findTaskById f.tasks taskId with _ | t
      · simp [resetTask, hfind, htask]
        exact hs
      · have : (resetTask s familyId taskId).1 =
            replaceFamilyById s
              { f with tasks := setTaskById f.tasks taskId resetUpd } := by
          simp [resetTask, hfind, htask]
        rw [this]
        refine storeInv_replace hs ?_
        exact all_setTaskById (storeInv_find hs hfind)
          (fun u => by simp [taskInv, resetUpd, completedByNonEmpty])
  · intro familyId newTaskId name category
    rcases hfind : findById s familyId with _ | f
    · simp [addTask, hfind]
      exact hs
    · by_cases hv : taskInputValid name category = true
      · have : (addTask s familyId newTaskId name category).1 =
            replaceFamilyById s
              { f with tasks := f.tasks ++
                  [{ id := newTaskId, name := name.getD "",
                     category := category.getD "other", completedBy := none,
                     completedAt := none, isCompleted := false }] } := by
          simp [addTask, hfind, hv]
        rw [this]
        refine storeInv_replace hs ?_
        have hfam : familyInv f = true := storeInv_find hs hfind
        simp only [familyInv, List.all_append] at *
        rw [hfam]
        rfl
      · have : (addTask s familyId newTaskId name category).1 = s := by
          simp [addTask, hfind, hv]
        rw [this]
        exact hs
  · intro familyId memberId
    rcases hfind : findById s familyId with _ | f
    · simp [toggleNotifications, hfind]
      exact hs
    · rcases hmem : findMemberById f.members memberId with _ | m
      · simp [toggleNotifications, hfind, hmem]
        exact hs
      · have : (toggleNotifications s familyId memberId).1 =
            replaceFamilyById s
              { f with members := setMemberById f.members memberId
                                    toggleUpd } := by
          simp [toggleNotifications, hfind, hmem]
        rw [this]
        refine storeInv_replace hs ?_
        have hfam : familyInv f = true := storeInv_find hs hfind
        exact hfam
  · intro familyId patch hpatch
    rcases hfind : findById s familyId with _ | f
    · simp [updateFamily, hfind]
      exact hs
    · have : (updateFamily s familyId patch).1 =
          replaceFamilyById s
            { f with name := patch.name.getD f.name,
                     members := (patch.members).getD f.members,
                     tasks := patch.tasks.getD f.tasks } := by
        simp [updateFamily, hfind]
      rw [this]
      refine storeInv_replace hs ?_
      rcases hts : patch.tasks with _ | ts
      · simpa [familyInv, hts] using storeInv_find hs hfind
      · simpa [familyInv, hts] using hpatch ts hts

/-- Witness for C1 (amended) on the sample store: a completion with the
non-empty completedBy A keeps the invariant. -/
theorem storeInv_preserved_witness :
    storeInv sampleStore = true ∧ completedByNonEmpty (some "A") = true ∧
    storeInv (completeTask (fun _ => false) sampleStore 1 0 (some "A") 5).1 =
      true :=
  ⟨rfl, rfl, (storeInv_preserved sampleStore rfl).2.1
    (fun _ => false) 1 0 (some "A") 5 rfl⟩

/-- C6: on a successful completion the event trace opens with the save
of the new store and contains no later save; the new store and the 200
response do not depend on which sends fail; the attempted SMS list is
the same whatever sends fail; and every failing eligible recipient gets
a log entry. -/
theorem completeTask_persist_before_notification
    (fails fails' : String → Bool) (s : Store) (familyId taskId : Nat)
    (cb : Option String) (now : Nat) (f : Family) (t : Task)
    (hf : findById s familyId = some f)
    (ht : findTaskById f.tasks taskId = some t) :
    ∃ store' f' events,
      completeTask fails s familyId taskId cb now =
        (store', Event.save store' :: events,
         { status := 200, body := Body.fam f' }) ∧
      (∃ t', findTaskById f'.tasks taskId = some t' ∧
        t'.isCompleted = true) ∧
      findById store' familyId = some f' ∧
      (∀ e ∈ events, ∀ st, e ≠ Event.save st) ∧
      (completeTask fails' s familyId taskId cb now).1 = store' ∧
      (completeTask fails' s familyId taskId cb now).2.2 =
        { status := 200, body := Body.fam f' } ∧
      attemptedSms events =
        attemptedSms (completeTask fails' s familyId taskId cb now).2.1 ∧
      (∀ m ∈ f'.members, (m.notifications && !(some m.name == cb)) = true →
        fails m.phone = true →
        Event.logError ("Failed to send SMS to " ++ m.phone) ∈ events) := by
  have hfid : f.id = familyId := findById_id hf
  have e1 : completeTask fails s familyId taskId cb now =
      (replaceFamilyById s
        { f with tasks := setTaskById f.tasks taskId (completeUpd cb now) },
       Event.save (replaceFamilyById s
         { f with tasks := setTaskById f.tasks taskId (completeUpd cb now) }) ::
         sendTaskNotifications fails
           { f with tasks := setTaskById f.tasks taskId (completeUpd cb now) }
           (completeUpd cb now t) cb,
       { status := 200,
         body := Body.fam { f with tasks := setTaskById f.tasks taskId
                                     (completeUpd cb now) } }) := by
    simp [completeTask, hf, ht]
  have e1' : completeTask fails' s familyId taskId cb now =
      (replaceFamilyById s
        { f with tasks := setTaskById f.tasks taskId (completeUpd cb now) },
       Event.save (replaceFamilyById s
         { f with tasks := setTaskById f.tasks taskId (completeUpd cb now) }) ::
         sendTaskNotifications fails'
           { f with tasks := setTaskById f.tasks taskId (completeUpd cb now) }
           (completeUpd cb now t) cb,
       { status := 200,
         body := Body.fam { f with tasks := setTaskById f.tasks taskId
                                     (completeUpd cb now) } }) := by
    simp [completeTask, hf, ht]
  have ht1 : findTaskById
      (setTaskById f.tasks taskId (completeUpd cb now)) taskId =
      some (completeUpd cb now t) := by
    rw [findTaskById_setTaskById f.tasks taskId (completeUpd cb now)
      (completeUpd_id cb now), ht]
    rfl
  refine ⟨_, _, _, e1, ⟨completeUpd cb now t, ht1, rfl⟩,
    findById_replace hf hfid, sendTaskNotifications_no_save fails _ _ cb,
    by rw [e1'], by rw [e1'], ?_, sendTaskNotifications_log_mem fails _ _ cb⟩
  rw [e1']
  have hsave : attemptedSms
      (Event.save (replaceFamilyById s
        { f with tasks := setTaskById f.tasks taskId (completeUpd cb now) }) ::
        sendTaskNotifications fails'
          { f with tasks := setTaskById f.tasks taskId (completeUpd cb now) }
          (completeUpd cb now t) cb) =
      attemptedSms (sendTaskNotifications fails'
        { f with tasks := setTaskById f.tasks taskId (completeUpd cb now) }
        (completeUpd cb now t) cb) := by
    simp [attemptedSms]
  rw [hsave, attemptedSms_sendTaskNotifications,
    attemptedSms_sendTaskNotifications]

/-- Witness for C6 on the sample store: completion of task 0 by A with
every send failing versus no send failing. -/
theorem completeTask_persist_before_notification_witness :
    ∃ store' f' events,
      completeTask (fun _ => true) sampleStore 1 0 (some "A") 5 =
        (store', Event.save store' :: events,
         { status := 200, body := Body.fam f' }) ∧
      (∃ t', findTaskById f'.tasks 0 = some t' ∧
        t'.isCompleted = true) ∧
      findById store' 1 = some f' ∧
      (∀ e ∈ events, ∀ st, e ≠ Event.save st) ∧
      (completeTask (fun _ => false) sampleStore 1 0 (some "A") 5).1 =
        store' ∧
      (completeTask (fun _ => false) sampleStore 1 0 (some "A") 5).2.2 =
        { status := 200, body := Body.fam f' } ∧
      attemptedSms events =
        attemptedSms
          (completeTask (fun _ => false) sampleStore 1 0 (some "A") 5).2.1 ∧
      (∀ m ∈ f'.members,
        (m.notifications && !(some m.name == some "A")) = true →
        (fun _ => true) m.phone = true →
        Event.logError ("Failed to send SMS to " ++ m.phone) ∈ events) :=
  completeTask_persist_before_notification (fun _ => true) (fun _ => false)
    sampleStore 1 0 (some "A") 5 _ _ rfl rfl

end PollyTrack
